import Mathlib

/-!
Shallow embedding of `src/main.py` (wildfire detection report pipeline).

Modelling conventions:
* pandas scalar cells are modelled by `RawCell`: a cell is missing (`na`,
  modelling `NaN`), a string, or a number.  Machine floats are modelled by
  exact rationals `ℚ` wherever the program only parses, compares, clips and
  classifies them; the transcendental geometry (`generate_bbox`,
  `haversine_np`) is modelled over `ℝ`.  Rational values are always built
  through `mkRat` and integer arithmetic so that every pipeline function
  evaluates inside the kernel on concrete inputs.
* A fetched per-sensor frame is a list of `RawRow`; a missing column is
  modelled by the corresponding field being `na`/`none` on every row
  (this is what lines 59-61 of the source produce).  `RawRow.extra` models
  any further feed columns, which the pipeline never touches.
* `NaN` distances are modelled by `Option`: `none` is the undefined/NaN
  distance produced by `haversine_np` on missing coordinates.
* `check_fires` is defined generically over the linearly ordered type `K`
  of distance values and over the distance function `dist`; the source
  instantiates it with the float haversine (`check_fires_float` below).
  Every theorem proved about the generic function in particular holds for
  that instantiation.
* `DataFrame.sort_values(by='distance_km')` keeps the pandas default
  `kind='quicksort'` in the source.  Its NaN handling (`na_position='last'`)
  is structural (pandas splits the NaN positions off before argsorting and
  appends them at the end), which the comparator `optLe` captures; the tie
  order among equal non-NaN keys, however, is the unspecified order produced
  by numpy's introsort and is *not* the arrival order.  `check_fires` below
  uses a stable sort (`List.insertionSort`; all stable sorts agree, and it
  is the one whose recursion the kernel evaluates); the single claim that is
  sensitive to tie order is settled separately against `argsort_quicksort`,
  a faithful translation of the numpy `aquicksort` routine actually run by
  the source, which demonstrably reorders ties.
-/

/-- Raw scalar cell of a fetched CSV column: missing (pandas `NaN`), a string,
or a numeric value. -/
inductive RawCell : Type
  | na : RawCell
  | str (s : String) : RawCell
  | num (q : ℚ) : RawCell
deriving DecidableEq, Repr

/-- Python `str.strip()`: drop whitespace at both ends (list-based so that the
kernel can evaluate it). -/
def strTrim (s : String) : String :=
  ⟨(((s.data.dropWhile Char.isWhitespace).reverse).dropWhile Char.isWhitespace).reverse⟩

/-- ASCII lowercasing of one character, as `str.lower()` acts on the
characters that can occur in the confidence labels. -/
def charLower (c : Char) : Char :=
  if 'A' ≤ c ∧ c ≤ 'Z' then Char.ofNat (c.toNat + 32) else c

/-- Python `str.lower()` (ASCII range). -/
def strLower (s : String) : String :=
  ⟨s.data.map charLower⟩

/-- Numeric value of a run of decimal digits. -/
def natOfDigits (l : List Char) : ℕ :=
  l.foldl (fun a c => 10 * a + (c.toNat - 48)) 0

/-- Split a character list into its leading run of digits and the rest. -/
def splitDigits (l : List Char) : List Char × List Char :=
  (l.takeWhile Char.isDigit, l.dropWhile Char.isDigit)

/-- Parse an optional exponent suffix (`e`/`E`, optional sign, digits); an
empty remainder means exponent `0`.  Returns `none` on trailing garbage. -/
def parseExp? : List Char → Option ℤ
  | [] => some 0
  | c :: rest =>
    if c = 'e' ∨ c = 'E' then
      match rest with
      | '+' :: ds =>
        if ds ≠ [] ∧ ds.all Char.isDigit then some (natOfDigits ds : ℤ) else none
      | '-' :: ds =>
        if ds ≠ [] ∧ ds.all Char.isDigit then some (-(natOfDigits ds : ℤ)) else none
      | ds =>
        if ds ≠ [] ∧ ds.all Char.isDigit then some (natOfDigits ds : ℤ) else none
    else none

/-- Parse a decimal mantissa `digits [. digits]` (at least one digit overall,
as Python `float` accepts `"1."` and `".5"`), returning its value as an
integer numerator with a power-of-ten denominator, and the unconsumed
remainder. -/
def parseMantissa? (l : List Char) : Option ((ℕ × ℕ) × List Char) :=
  let p := splitDigits l
  match p.2 with
  | '.' :: rest2 =>
    let q := splitDigits rest2
    if p.1 = [] ∧ q.1 = [] then none
    else some ((natOfDigits p.1 * 10 ^ q.1.length + natOfDigits q.1, q.1.length), q.2)
  | _ => if p.1 = [] then none else some ((natOfDigits p.1, 0), p.2)

/-- Numeric parsing of a string cell, modelling `pd.to_numeric(·, errors='coerce')`
(equivalently Python `float(...)`) on the finite decimal/scientific forms:
optional surrounding whitespace, optional sign, decimal mantissa, optional
exponent.  Non-finite spellings (`"nan"`, `"inf"`) are modelled as `none`:
`to_numeric("nan")` yields `NaN`, which the pipeline treats identically to a
failed parse. -/
def parseFloat? (s : String) : Option ℚ :=
  let l := (strTrim s).data
  let sl : ℤ × List Char :=
    match l with
    | '+' :: r => (1, r)
    | '-' :: r => (-1, r)
    | r => (1, r)
  match parseMantissa? sl.2 with
  | none => none
  | some mr =>
    match parseExp? mr.2 with
    | none => none
    | some e =>
      if 0 ≤ e then some (mkRat (sl.1 * (mr.1.1 * 10 ^ e.toNat : ℕ)) (10 ^ mr.1.2))
      else some (mkRat (sl.1 * (mr.1.1 : ℤ)) (10 ^ mr.1.2 * 10 ^ (-e).toNat))

/-- Model of `Series.astype(str)` on one cell: `NaN` stringifies to `"nan"`,
strings are unchanged, numbers become a decimal rendering (the exact
rendering of a numeric cell is irrelevant downstream: it is only ever tested
for membership in the label set `{low, nominal, high}`, and a rendering made
of digits, signs and punctuation never is a label). -/
def RawCell.astypeStr : RawCell → String
  | .na => "nan"
  | .str s => s
  | .num q => toString q

/-- Model of `pd.to_numeric(·, errors='coerce')` on one cell: `NaN` for a
missing cell or a failed parse (`none`), the value otherwise. -/
def RawCell.toNumeric? : RawCell → Option ℚ
  | .na => none
  | .str s => parseFloat? s
  | .num q => some q

/-- The categorical confidence mapping of line 66: `{low: 30, nominal: 60, high: 90}`. -/
def mappingLookup (s : String) : Option ℚ :=
  if s = "low" then some 30
  else if s = "nominal" then some 60
  else if s = "high" then some 90
  else none

/-- The trimmed, lowercased string form of a confidence cell
(line 67: `df['confidence'].astype(str).str.strip().str.lower()`). -/
def conf_raw (c : RawCell) : String :=
  strLower (strTrim c.astypeStr)

/-- Rowwise value of the numeric series `confidence_pct` of lines 66-73:
cells whose trimmed lowercase form is a label get the mapped percentage,
the rest are filled with the numeric parse of the original cell
(`fillna(numeric_conf)`), the result is clipped to `[0, 100]`
(`NaN` passes through the clip), and remaining `NaN`s become `0`. -/
def confidence_pct (c : RawCell) : ℚ :=
  let mapped : Option ℚ := mappingLookup (conf_raw c)
  let filled : Option ℚ :=
    match mapped with
    | some v => some v
    | none => c.toNumeric?
  let clipped : Option ℚ := filled.map (fun q => max 0 (min q 100))
  clipped.getD 0

/-- Rowwise value of line 63, `pd.to_numeric(df['frp'], errors='coerce').fillna(0)`. -/
def frpValue (c : RawCell) : ℚ :=
  (c.toNumeric?).getD 0

/-- Rowwise value of the `np.select` of lines 78-82: the first true condition
among `frp < 30`, `frp < 100` selects `Low`, `Moderate`; otherwise `High`. -/
def intensityOfFrp (frp : ℚ) : String :=
  if frp < 30 then "Low"
  else if frp < 100 then "Moderate"
  else "High"

/-- The nested classifier of lines 98-104. -/
def classify_risk (conf : ℚ) : String :=
  if conf ≥ 70 then "High"
  else if conf ≥ 50 then "Medium"
  else "Low"

/-- Floor of a rational, written on the numerator/denominator so that the
kernel evaluates it (`Int.fdiv` is floor division). -/
def ratFloor (q : ℚ) : ℤ :=
  Int.fdiv q.num q.den

/-- Round to the nearest integer, ties to the even integer: the rounding mode
of Python `format(x, '.0f')` on the exact value of `x`.  The fractional part
`r = q - ⌊q⌋` is compared with `1/2` through the exact integer quantity
`2·(q.num − ⌊q⌋·q.den)` versus `q.den`. -/
def roundHalfEven (q : ℚ) : ℤ :=
  let f : ℤ := ratFloor q
  let tr : ℤ := 2 * (q.num - f * q.den)
  if tr < q.den then f
  else if (q.den : ℤ) < tr then f + 1
  else if f % 2 = 0 then f else f + 1

/-- Decimal digit character. -/
def digitChar (n : ℕ) : Char :=
  Char.ofNat (48 + n)

/-- Decimal digit list of a natural number (fuel-driven so the recursion is
structural; the fuel `n + 1` always suffices). -/
def natDigits : ℕ → ℕ → List Char
  | 0, _ => []
  | fuel + 1, n => if n < 10 then [digitChar n] else natDigits fuel (n / 10) ++ [digitChar (n % 10)]

/-- Decimal rendering of a natural number. -/
def natStr (n : ℕ) : String :=
  ⟨natDigits (n + 1) n⟩

/-- Decimal rendering of an integer, as Python `str`/`format` produce it. -/
def intStr (n : ℤ) : String :=
  if n < 0 then "-" ++ natStr n.natAbs else natStr n.natAbs

/-- Display string of line 75, `f"{x:.0f}%"` applied to a confidence value. -/
def formatPct (q : ℚ) : String :=
  intStr (roundHalfEven q) ++ "%"

/-- Python `int(x)` on a (finite) float value: truncation toward zero
(`Int.tdiv` on the exact fraction). -/
def truncInt (q : ℚ) : ℤ :=
  Int.tdiv q.num q.den

/-- Python `f"{n:02d}"`: decimal rendering left-padded with `0` to width 2. -/
def pad2 (n : ℤ) : String :=
  if 0 ≤ n ∧ n < 10 then "0" ++ intStr n else intStr n

/-- Rowwise value of line 88: `f"{int(x)//100:02d}:{int(x)%100:02d}"` when the
acquisition time is present, `"00:00"` otherwise.  Python `//` and `%` are
floor division and floor remainder, `Int.fdiv` and `Int.fmod`. -/
def formatTime : Option ℚ → String
  | none => "00:00"
  | some q => pad2 (Int.fdiv (truncInt q) 100) ++ ":" ++ pad2 (Int.fmod (truncInt q) 100)

/-- One row of one sensor's fetched CSV frame.  The six columns that lines
59-61 of the source guarantee to exist are fields (a column absent from the
feed is the corresponding field being `na`/`none` on every row); `extra`
models any further feed columns, which the pipeline carries along untouched. -/
structure RawRow : Type where
  latitude : Option ℚ
  longitude : Option ℚ
  frp : RawCell
  confidence : RawCell
  acq_time : Option ℚ
  acq_date : Option String
  extra : List (String × RawCell)
deriving DecidableEq, Repr

/-- One row of the processed frame as it stands after line 89 of the source:
the raw columns (with `satellite` assigned and `frp` numerically coerced in
place) together with every derived column.  The numeric confidence series of
lines 66-73 is *not* a column of the frame; it is the separate rowwise value
`confidence_pct row.confidence`. -/
structure NormRow (K : Type) : Type where
  satellite : String
  latitude : Option ℚ
  longitude : Option ℚ
  frp : ℚ
  confidence : RawCell
  acq_time : Option ℚ
  acq_date : Option String
  extra : List (String × RawCell)
  confidence_percent : String
  intensity : String
  distance_km : Option K
  time : String
  date : Option String
deriving DecidableEq, Repr

/-- A row of the final report: the processed row plus the `fire_risk` column
assigned on line 106. -/
structure OutRow (K : Type) : Type where
  row : NormRow K
  fire_risk : String
deriving DecidableEq, Repr

/-- Result of `check_fires`: the two early returns of an empty frame (lines
52-54 and 94-96, each with its own terminal message) and the non-empty
report path (line 131).  A report row is paired with its frame index. -/
inductive CheckResult (K : Type) : Type
  | noData : CheckResult K
  | noReliable : CheckResult K
  | report (frame : List (ℕ × OutRow K)) : CheckResult K
deriving DecidableEq, Repr

/-- Comparator of `sort_values(by='distance_km')` on possibly-NaN keys with
the default `na_position='last'`: defined keys compare by value and every
defined key precedes every undefined one (pandas splits the NaN positions
off and appends them after the argsorted non-NaN block). -/
def optLe {K : Type} [LinearOrder K] : Option K → Option K → Bool
  | some x, some y => decide (x ≤ y)
  | some _, none => true
  | none, some _ => false
  | none, none => true

/-- The unioned detection rows of line 57 (`pd.concat(dfs, ignore_index=True)`),
each tagged with its sensor id by line 46 (`df['satellite'] = sat`); sensors
whose frame was empty were skipped by lines 44-45.  The position in this list
is the row's index in the concatenated frame. -/
def taggedRows (feeds : List (String × List RawRow)) : List (String × RawRow) :=
  (feeds.filter (fun f => !f.2.isEmpty)).flatMap (fun f => f.2.map (fun r => (f.1, r)))

/-- Total number of fetched rows across all sensors. -/
def totalFetched (feeds : List (String × List RawRow)) : ℕ :=
  (feeds.map (fun f => f.2.length)).sum

/-- The processing of lines 63-89 applied to one tagged row: numeric `frp`
coercion, confidence display string, intensity, distance (through the
supplied distance function, `haversine_np` in the source), time and date
columns. -/
def buildNormRow {K : Type} (dist : Option ℚ → Option ℚ → Option K)
    (sat : String) (r : RawRow) : NormRow K :=
  { satellite := sat
    latitude := r.latitude
    longitude := r.longitude
    frp := frpValue r.frp
    confidence := r.confidence
    acq_time := r.acq_time
    acq_date := r.acq_date
    extra := r.extra
    confidence_percent := formatPct (confidence_pct r.confidence)
    intensity := intensityOfFrp (frpValue r.frp)
    distance_km := dist r.latitude r.longitude
    time := formatTime r.acq_time
    date := r.acq_date }

/-- The `check_fires` pipeline of lines 33-131, generic in the ordered type of
distance values and in the distance function (the source uses the float
haversine; see `check_fires_float`).  Data collection itself (the per-sensor
HTTP fetch of lines 37-50) is the external collaborator: `feeds` holds each
successfully fetched sensor frame.  Steps, in source order: skip empty
frames; take the no-data early return; union the remaining frames; compute
the numeric confidence series; build the derived columns; filter the frame
by `confidence_pct >= 40`; take the filtered early return; assign
`fire_risk`; sort by `distance_km` (stable tie order modelled here, see the
header note); reset the index. -/
def check_fires {K : Type} [LinearOrder K] (dist : Option ℚ → Option ℚ → Option K)
    (feeds : List (String × List RawRow)) : CheckResult K :=
  let dfs := feeds.filter (fun f => !f.2.isEmpty)
  if dfs.isEmpty then .noData
  else
    let df := dfs.flatMap (fun f => f.2.map (fun r => (f.1, r)))
    let confidence_series : List ℚ := df.map (fun t => confidence_pct t.2.confidence)
    let normed : List (NormRow K) := df.map (fun t => buildNormRow dist t.1 t.2)
    let kept : List (ℕ × NormRow K × ℚ) :=
      (normed.zip confidence_series).enum.filter (fun p => 40 ≤ p.2.2)
    if kept.isEmpty then .noReliable
    else
      let risked : List (ℕ × OutRow K) :=
        kept.map (fun p => (p.1, ⟨p.2.1, classify_risk p.2.2⟩))
      let sorted :=
        List.insertionSort (fun a b : ℕ × OutRow K =>
          optLe a.2.row.distance_km b.2.row.distance_km = true) risked
      .report ((sorted.map Prod.snd).enum)

/-- The ten columns of the printed table (lines 110-111), in their fixed order. -/
def report_columns : List String :=
  ["satellite", "latitude", "longitude", "date", "time", "frp", "intensity",
   "confidence_percent", "fire_risk", "distance_km"]

/-- Projection of one report row onto the ten printed columns, in the order of
`report_columns` (the per-row selection of lines 128-129; the renderer's
centring and padding is the external formatting collaborator). -/
def projectRow {K : Type} (o : OutRow K) :
    String × Option ℚ × Option ℚ × Option String × String × ℚ × String × String × String × Option K :=
  (o.row.satellite, o.row.latitude, o.row.longitude, o.row.date, o.row.time,
   o.row.frp, o.row.intensity, o.row.confidence_percent, o.fire_risk, o.row.distance_km)

/-- The rows handed to the table renderer: the report frame projected onto the
ten fixed columns. -/
def printed_table {K : Type} (frame : List (ℕ × OutRow K)) :
    List (String × Option ℚ × Option ℚ × Option String × String × ℚ × String × String × String × Option K) :=
  frame.map (fun p => projectRow p.2)

/-- Model of `np.radians`/`math.radians`. -/
noncomputable def radians (x : ℝ) : ℝ :=
  x * (Real.pi / 180)

/-- The guarded cosine of line 16: `math.cos(math.radians(lat))` when
`abs(lat) < 89.9`, the fixed small value `0.0001` otherwise. -/
noncomputable def bboxCos (lat : ℝ) : ℝ :=
  if |lat| < 89.9 then Real.cos (radians lat) else 0.0001

/-- The bounding-box computation of lines 14-18.  The source interpolates the
four values into a comma-separated string; the model returns them as the
tuple `(minLon, minLat, maxLon, maxLat)`. -/
noncomputable def generate_bbox (lat lon radius_km : ℝ) : ℝ × ℝ × ℝ × ℝ :=
  let delta_lat := radius_km / 111
  let cos_lat := bboxCos lat
  let delta_lon := radius_km / (111 * cos_lat)
  (lon - delta_lon, lat - delta_lat, lon + delta_lon, lat + delta_lat)

/-- Model of `np.arctan2` on real (non-NaN) arguments. -/
noncomputable def arctan2 (y x : ℝ) : ℝ :=
  if 0 < x then Real.arctan (y / x)
  else if x < 0 then
    if 0 ≤ y then Real.arctan (y / x) + Real.pi else Real.arctan (y / x) - Real.pi
  else
    if 0 < y then Real.pi / 2
    else if y < 0 then -(Real.pi / 2)
    else 0

/-- The haversine of lines 20-30 applied to one detection: the vectorized
formula acts elementwise, and a missing coordinate (NaN) propagates through
`radians`, `sin`, `cos`, `sqrt` and `arctan2` to a NaN distance, modelled as
`none`. -/
noncomputable def haversine_np (lat0 lon0 : ℝ) (lat lon : Option ℝ) : Option ℝ :=
  match lat, lon with
  | some la, some lo =>
    let R : ℝ := 6371.0
    let lat0_rad := radians lat0
    let lon0_rad := radians lon0
    let lats_rad := radians la
    let lons_rad := radians lo
    let dlat := lats_rad - lat0_rad
    let dlon := lons_rad - lon0_rad
    let a := Real.sin (dlat / 2) ^ 2 +
      Real.cos lat0_rad * Real.cos lats_rad * Real.sin (dlon / 2) ^ 2
    let c := 2 * arctan2 (Real.sqrt a) (Real.sqrt (1 - a))
    some (R * c)
  | _, _ => none

/-- The pipeline exactly as the source runs it: distances are the float
haversine from the reference point, coordinates cast from the exact cell
values. -/
noncomputable def check_fires_float (lat lon : ℝ)
    (feeds : List (String × List RawRow)) : CheckResult ℝ :=
  check_fires (fun la lo => haversine_np lat lon (la.map Rat.cast) (lo.map Rat.cast)) feeds

/-!
Faithful translation of numpy's `aquicksort` (file `npysort/quicksort.c.src`,
the argsort routine behind `np.argsort(..., kind='quicksort')`, an introsort):
this is what `DataFrame.sort_values(by='distance_km')` runs on the
`distance_km` values in line 107 of the source, since the source leaves the
pandas default `kind='quicksort'` in place (with no NaN present pandas calls
`argsort` on the raw values directly).  The C routine mutates the index array
`tosort` in place with an explicit work stack; here the index array is passed
along functionally and each C loop carries a fuel argument that strictly
dominates its iteration count, so the recursion is structural.  Small
partitions (length ≤ `SMALL_QUICKSORT + 1`) are finished by the insertion
sort; the introsort depth limit starts at `2 * msb(n)` and a partition met
with a negative limit falls back to the heapsort. -/

/-- numpy's `SMALL_QUICKSORT` threshold (15). -/
def SMALL_QUICKSORT : ℕ := 15

/-- Swap two entries of the index array (`INTP_SWAP`). -/
def aswap (ts : Array ℕ) (i j : ℕ) : Array ℕ :=
  let a := ts.getD i 0
  let b := ts.getD j 0
  (ts.setD i b).setD j a

/-- The key `v[*p]` at index-array position `i`. -/
def akey (v : Array ℚ) (ts : Array ℕ) (i : ℕ) : ℚ :=
  v.getD (ts.getD i 0) 0

/-- The C scan `do ++pi; while (v[*pi] < vp)`. -/
def scanUp (v : Array ℚ) (ts : Array ℕ) (vp : ℚ) : ℕ → ℕ → ℕ
  | 0, pi => pi + 1
  | fuel + 1, pi =>
    if akey v ts (pi + 1) < vp then scanUp v ts vp fuel (pi + 1) else pi + 1

/-- The C scan `do --pj; while (vp < v[*pj])`. -/
def scanDown (v : Array ℚ) (ts : Array ℕ) (vp : ℚ) : ℕ → ℕ → ℕ
  | 0, pj => pj - 1
  | fuel + 1, pj =>
    if vp < akey v ts (pj - 1) then scanDown v ts vp fuel (pj - 1) else pj - 1

/-- The partition exchange loop: scan up, scan down, stop when the scans
cross, otherwise swap and continue.  Returns the final `pi`. -/
def partLoop (v : Array ℚ) (vp : ℚ) : ℕ → Array ℕ → ℕ → ℕ → Array ℕ × ℕ
  | 0, ts, pi, _ => (ts, pi)
  | fuel + 1, ts, pi, pj =>
    let pi2 := scanUp v ts vp (ts.size + 1) pi
    let pj2 := scanDown v ts vp (ts.size + 1) pj
    if pj2 ≤ pi2 then (ts, pi2)
    else partLoop v vp fuel (aswap ts pi2 pj2) pi2 pj2

/-- One-based access into the heapsort's subrange (`a = tosort + pl - 1`). -/
def hGet (ts : Array ℕ) (pl i : ℕ) : ℕ :=
  ts.getD (pl + i - 1) 0

/-- One-based update into the heapsort's subrange. -/
def hSet (ts : Array ℕ) (pl i : ℕ) (x : ℕ) : Array ℕ :=
  ts.setD (pl + i - 1) x

/-- The sift-down loop shared by both phases of `aheapsort_`: starting from
hole `i` with child `j`, walk the larger child upward while it beats `tmp`.
Returns the final hole position. -/
def siftLoop (v : Array ℚ) (pl n tmp : ℕ) : ℕ → Array ℕ → ℕ → ℕ → Array ℕ × ℕ
  | 0, ts, i, _ => (ts, i)
  | fuel + 1, ts, i, j =>
    if j ≤ n then
      let j := if j < n ∧ v.getD (hGet ts pl j) 0 < v.getD (hGet ts pl (j + 1)) 0 then j + 1 else j
      if v.getD tmp 0 < v.getD (hGet ts pl j) 0 then
        siftLoop v pl n tmp fuel (hSet ts pl i (hGet ts pl j)) j (j + j)
      else (ts, i)
    else (ts, i)

/-- Heap construction phase of `aheapsort_` (`for (l = n>>1; l > 0; --l)`). -/
def heapPhase1 (v : Array ℚ) (pl n : ℕ) : ℕ → Array ℕ → ℕ → Array ℕ
  | 0, ts, _ => ts
  | fuel + 1, ts, l =>
    if l = 0 then ts
    else
      let tmp := hGet ts pl l
      let r := siftLoop v pl n tmp (n + 2) ts l (l * 2)
      heapPhase1 v pl n fuel (hSet r.1 pl r.2 tmp) (l - 1)

/-- Extraction phase of `aheapsort_` (`for (; n > 1;)`). -/
def heapPhase2 (v : Array ℚ) (pl : ℕ) : ℕ → Array ℕ → ℕ → Array ℕ
  | 0, ts, _ => ts
  | fuel + 1, ts, n =>
    if n ≤ 1 then ts
    else
      let tmp := hGet ts pl n
      let ts := hSet ts pl n (hGet ts pl 1)
      let n := n - 1
      let r := siftLoop v pl n tmp (n + 2) ts 1 2
      heapPhase2 v pl fuel (hSet r.1 pl r.2 tmp) n

/-- numpy's `aheapsort_` on the subrange of length `n` starting at `pl`. -/
def aheapsort (v : Array ℚ) (ts : Array ℕ) (pl n : ℕ) : Array ℕ :=
  heapPhase2 v pl (n + 1) (heapPhase1 v pl n (n / 2 + 1) ts (n / 2)) n

/-- Inner shifting loop of the insertion sort
(`while (pj > pl && LT(vp, v[*pk])) { *pj-- = *pk--; }`). -/
def insInner (v : Array ℚ) (pl : ℕ) (vp : ℚ) : ℕ → Array ℕ → ℕ → Array ℕ × ℕ
  | 0, ts, pj => (ts, pj)
  | fuel + 1, ts, pj =>
    if pl < pj ∧ vp < v.getD (ts.getD (pj - 1) 0) 0 then
      insInner v pl vp fuel (ts.setD pj (ts.getD (pj - 1) 0)) (pj - 1)
    else (ts, pj)

/-- The insertion sort that finishes each small subrange `pl..pr`. -/
def insLoop (v : Array ℚ) (pl pr : ℕ) : ℕ → Array ℕ → ℕ → Array ℕ
  | 0, ts, _ => ts
  | fuel + 1, ts, pi =>
    if pi ≤ pr then
      let vi := ts.getD pi 0
      let vp := v.getD vi 0
      let r := insInner v pl vp (pi + 1) ts pi
      insLoop v pl pr fuel (r.1.setD r.2 vi) (pi + 1)
    else ts

/-- Main loop of `aquicksort_`: partition large subranges (median-of-three
pivot, exchange loop, push the larger side), insertion-sort small ones, pop
the work stack until it is empty.  `depth` is the remaining introsort depth
(`depth_limit`); a large subrange met with `depth < 0` is heapsorted.  In C
the bounds are pointers and `pr` may move one slot before `pl` (an empty
subrange); truncated subtraction sends every such subrange to the same no-op
insertion branch. -/
def qsLoop (v : Array ℚ) : ℕ → Array ℕ → ℕ → ℕ → ℤ → List (ℕ × ℕ) → Array ℕ
  | 0, ts, _, _, _, _ => ts
  | fuel + 1, ts, pl, pr, depth, stack =>
    if SMALL_QUICKSORT < pr - pl then
      if depth < 0 then
        let ts := aheapsort v ts pl (pr - pl + 1)
        match stack with
        | [] => ts
        | (pl2, pr2) :: rest => qsLoop v fuel ts pl2 pr2 depth rest
      else
        let depth := depth - 1
        let pm := pl + (pr - pl) / 2
        let ts := if akey v ts pm < akey v ts pl then aswap ts pm pl else ts
        let ts := if akey v ts pr < akey v ts pm then aswap ts pr pm else ts
        let ts := if akey v ts pm < akey v ts pl then aswap ts pm pl else ts
        let vp := akey v ts pm
        let ts := aswap ts pm (pr - 1)
        let r := partLoop v vp (ts.size + 2) ts pl (pr - 1)
        let ts := aswap r.1 r.2 (pr - 1)
        if r.2 - pl < pr - r.2 then
          qsLoop v fuel ts pl (r.2 - 1) depth ((r.2 + 1, pr) :: stack)
        else
          qsLoop v fuel ts (r.2 + 1) pr depth ((pl, r.2 - 1) :: stack)
    else
      let ts := insLoop v pl pr (pr + 1) ts (pl + 1)
      match stack with
      | [] => ts
      | (pl2, pr2) :: rest => qsLoop v fuel ts pl2 pr2 depth rest

/-- `np.argsort(v, kind='quicksort')`: run `aquicksort_` over the identity
index array.  The fuel dominates the number of loop iterations (each
partition strictly splits its range, so there are fewer than `n` partitions
and at most one pop per push). -/
def argsort_quicksort (v : Array ℚ) : Array ℕ :=
  let n := v.size
  qsLoop v (4 * n + 64) (Array.range n) 0 (n - 1) (2 * (Nat.log2 n : ℤ)) []

/-- A simple distance function used to exercise the generic pipeline on
concrete inputs: both coordinates present give distance `0`, a missing
coordinate gives an undefined distance, as the haversine does. -/
def distZero : Option ℚ → Option ℚ → Option ℚ :=
  fun a b =>
    match a, b with
    | some _, some _ => some 0
    | _, _ => none

/-- Concrete detection with full data and label confidence `high`. -/
def demoRowHigh : RawRow :=
  ⟨some 0, some 0, .num 120, .str "high", some 1345, some "2025-01-01", [("brightness", .num 330)]⟩

/-- Concrete detection with label confidence `low` (filtered out). -/
def demoRowLow : RawRow :=
  ⟨some 1, some 1, .na, .str "low", none, none, []⟩

/-- Concrete detection with a missing latitude and numeric confidence 80. -/
def demoRowNoCoord : RawRow :=
  ⟨none, some 2, .num 5, .num 80, none, none, []⟩

/-- Concrete two-sensor feed: one sensor with three rows, one empty. -/
def demoFeeds : List (String × List RawRow) :=
  [("MODIS_NRT", [demoRowHigh, demoRowLow, demoRowNoCoord]), ("VIIRS_NOAA20_NRT", [])]

theorem optLe_total {K : Type} [LinearOrder K] (a b : Option K) :
    optLe a b = true ∨ optLe b a = true := by
  cases a <;> cases b <;> simp [optLe]
  exact le_total _ _

theorem optLe_trans {K : Type} [LinearOrder K] {a b c : Option K}
    (h1 : optLe a b = true) (h2 : optLe b c = true) : optLe a c = true := by
  cases a <;> cases b <;> cases c <;> simp_all [optLe]
  exact le_trans h1 h2

/-- Structure lemma for the report path of `check_fires`: the returned frame
is the re-enumeration of a list that is sorted by `optLe` on `distance_km`
and is a permutation of the kept (confidence-filtered) rows of the unioned
feed, each carrying its concat index, derived columns and `fire_risk`. -/
theorem check_fires_report_spec {K : Type} [LinearOrder K]
    (dist : Option ℚ → Option ℚ → Option K) (feeds : List (String × List RawRow))
    (frame : List (ℕ × OutRow K)) (h : check_fires dist feeds = .report frame) :
    ∃ sorted : List (ℕ × OutRow K),
      frame = (sorted.map Prod.snd).enum ∧
      List.Pairwise (fun a b : ℕ × OutRow K =>
        optLe a.2.row.distance_km b.2.row.distance_km = true) sorted ∧
      sorted.Perm
        (((((taggedRows feeds).map (fun t =>
            (buildNormRow dist t.1 t.2, confidence_pct t.2.confidence))).enum.filter
              (fun p => 40 ≤ p.2.2)).map
          (fun p => (p.1, ⟨p.2.1, classify_risk p.2.2⟩)))) := by
  simp only [check_fires, List.zip_map'] at h
  split at h
  · exact absurd h (by simp)
  · split at h
    · exact absurd h (by simp)
    · injection h with h
      subst h
      refine ⟨_, rfl, ?_, ?_⟩
      · haveI ht : IsTotal (ℕ × OutRow K)
            (fun a b => optLe a.2.row.distance_km b.2.row.distance_km = true) :=
          ⟨fun a b => optLe_total _ _⟩
        haveI htr : IsTrans (ℕ × OutRow K)
            (fun a b => optLe a.2.row.distance_km b.2.row.distance_km = true) :=
          ⟨fun _ _ _ hab hbc => optLe_trans hab hbc⟩
        exact List.sorted_insertionSort _ _
      · unfold taggedRows
        exact List.perm_insertionSort _ _

/-- Provenance of one report row: it comes from a unioned feed row whose
numeric confidence passed the filter, its columns are the derived ones and
its risk is classified from the numeric confidence of that feed row. -/
theorem report_mem_spec {K : Type} [LinearOrder K]
    (dist : Option ℚ → Option ℚ → Option K) (feeds : List (String × List RawRow))
    (frame : List (ℕ × OutRow K)) (h : check_fires dist feeds = .report frame)
    {p : ℕ × OutRow K} (hp : p ∈ frame) :
    ∃ t ∈ taggedRows feeds, 40 ≤ confidence_pct t.2.confidence ∧
      p.2.row = buildNormRow dist t.1 t.2 ∧
      p.2.fire_risk = classify_risk (confidence_pct t.2.confidence) := by
  obtain ⟨sorted, hframe, _, hperm⟩ := check_fires_report_spec dist feeds frame h
  subst hframe
  have h2 : p.2 ∈ sorted.map Prod.snd := by
    have h3 := List.mem_map_of_mem Prod.snd hp
    rwa [List.enum_map_snd] at h3
  obtain ⟨s, hs, hsp⟩ := List.mem_map.mp h2
  have hs2 := hperm.subset hs
  obtain ⟨kp, hkp, hkps⟩ := List.mem_map.mp hs2
  have hkp2 := List.mem_filter.mp hkp
  have hkp3 : kp.2 ∈ (taggedRows feeds).map (fun t =>
      (buildNormRow dist t.1 t.2, confidence_pct t.2.confidence)) := by
    have h4 := List.mem_map_of_mem Prod.snd hkp2.1
    rwa [List.enum_map_snd] at h4
  obtain ⟨t, ht, htk⟩ := List.mem_map.mp hkp3
  have hconf : 40 ≤ kp.2.2 := of_decide_eq_true hkp2.2
  have hrow : kp.2.1 = buildNormRow dist t.1 t.2 := by rw [← htk]
  have hcp : kp.2.2 = confidence_pct t.2.confidence := by rw [← htk]
  have hp2 : p.2 = ⟨kp.2.1, classify_risk kp.2.2⟩ := by rw [← hsp, ← hkps]
  refine ⟨t, ht, ?_, ?_, ?_⟩
  · rw [← hcp]
    exact hconf
  · rw [hp2, ← hrow]
  · rw [hp2, ← hcp]

/-- The unioned row count is at most the total fetched row count (the union
skips the empty frames). -/
theorem taggedRows_length_le (feeds : List (String × List RawRow)) :
    (taggedRows feeds).length ≤ totalFetched feeds := by
  unfold taggedRows totalFetched
  rw [List.length_flatMap]
  have hsub : ((feeds.filter (fun f => !f.2.isEmpty)).map
        (List.length ∘ (fun f : String × List RawRow => f.2.map (fun r => (f.1, r))))).Sublist
      (feeds.map (List.length ∘ (fun f : String × List RawRow => f.2.map (fun r => (f.1, r))))) :=
    (List.filter_sublist feeds).map _
  have hle := hsub.sum_le_sum (fun a _ => Nat.zero_le a)
  calc ((feeds.filter (fun f => !f.2.isEmpty)).map
        (List.length ∘ (fun f : String × List RawRow => f.2.map (fun r => (f.1, r))))).sum
      ≤ (feeds.map (List.length ∘ (fun f : String × List RawRow =>
          f.2.map (fun r => (f.1, r))))).sum := hle
    _ = (feeds.map (fun f => f.2.length)).sum := by
        simp [Function.comp_def]

/-- A report never has more rows than were fetched. -/
theorem report_length_le {K : Type} [LinearOrder K]
    (dist : Option ℚ → Option ℚ → Option K) (feeds : List (String × List RawRow))
    (frame : List (ℕ × OutRow K)) (h : check_fires dist feeds = .report frame) :
    frame.length ≤ totalFetched feeds := by
  obtain ⟨sorted, hframe, _, hperm⟩ := check_fires_report_spec dist feeds frame h
  subst hframe
  rw [List.enum_length, List.length_map, hperm.length_eq, List.length_map]
  calc ((((taggedRows feeds).map (fun t =>
          (buildNormRow dist t.1 t.2, confidence_pct t.2.confidence))).enum.filter
            (fun p => 40 ≤ p.2.2)).length)
      ≤ (((taggedRows feeds).map (fun t =>
          (buildNormRow dist t.1 t.2, confidence_pct t.2.confidence))).enum.length) :=
        List.length_filter_le _ _
    _ = (taggedRows feeds).length := by rw [List.enum_length, List.length_map]
    _ ≤ totalFetched feeds := taggedRows_length_le feeds

/-- Positional sortedness of the report: the `optLe` comparator holds between
any two rows in frame order. -/
theorem report_sorted_get {K : Type} [LinearOrder K]
    (dist : Option ℚ → Option ℚ → Option K) (feeds : List (String × List RawRow))
    (frame : List (ℕ × OutRow K)) (h : check_fires dist feeds = .report frame)
    (i j : ℕ) (hij : i < j) (hi : i < frame.length) (hj : j < frame.length) :
    optLe ((frame.get ⟨i, hi⟩).2).row.distance_km
      ((frame.get ⟨j, hj⟩).2).row.distance_km = true := by
  obtain ⟨sorted, hframe, hpair, _⟩ := check_fires_report_spec dist feeds frame h
  subst hframe
  have hlen : ((sorted.map Prod.snd).enum).length = sorted.length := by
    rw [List.enum_length, List.length_map]
  have hi2 : i < sorted.length := by rw [← hlen]; exact hi
  have hj2 : j < sorted.length := by rw [← hlen]; exact hj
  have hgi : (((sorted.map Prod.snd).enum).get ⟨i, hi⟩).2 =
      (sorted.get ⟨i, hi2⟩).2 := by
    rw [List.get_enum]
    simp [List.get_map]
  have hgj : (((sorted.map Prod.snd).enum).get ⟨j, hj⟩).2 = (sorted.get ⟨j, hj2⟩).2 := by
    rw [List.get_enum]
    simp [List.get_map]
  rw [hgi, hgj]
  exact List.pairwise_iff_get.mp hpair ⟨i, hi2⟩ ⟨j, hj2⟩ hij

/-- The no-data early return of lines 52-54 is taken exactly when every sensor
contributed zero rows. -/
theorem check_fires_noData_iff {K : Type} [LinearOrder K]
    (dist : Option ℚ → Option ℚ → Option K) (feeds : List (String × List RawRow)) :
    check_fires dist feeds = .noData ↔ ∀ f ∈ feeds, f.2 = [] := by
  simp only [check_fires, List.zip_map']
  split
  · rename_i h1
    simp only [List.isEmpty_iff, List.filter_eq_nil_iff] at h1
    simp only [true_iff]
    intro f hf
    have h2 := h1 f hf
    simpa using h2
  · rename_i h1
    simp only [List.isEmpty_iff, List.filter_eq_nil_iff] at h1
    push_neg at h1
    obtain ⟨f, hf, hne⟩ := h1
    have hfne : f.2 ≠ [] := by simpa using hne
    split
    · simp only [reduceCtorEq, false_iff]
      intro hall
      exact hfne (hall f hf)
    · simp only [reduceCtorEq, false_iff]
      intro hall
      exact hfne (hall f hf)

/-- The filtered early return of lines 94-96 is taken exactly when some sensor
contributed rows but every unioned row has numeric confidence below 40. -/
theorem check_fires_noReliable_iff {K : Type} [LinearOrder K]
    (dist : Option ℚ → Option ℚ → Option K) (feeds : List (String × List RawRow)) :
    check_fires dist feeds = .noReliable ↔
      ((∃ f ∈ feeds, f.2 ≠ []) ∧
        ∀ t ∈ taggedRows feeds, confidence_pct t.2.confidence < 40) := by
  simp only [check_fires, List.zip_map']
  split
  · rename_i h1
    simp only [List.isEmpty_iff, List.filter_eq_nil_iff] at h1
    simp only [reduceCtorEq, false_iff]
    rintro ⟨⟨f, hf, hne⟩, -⟩
    have h2 := h1 f hf
    exact hne (by simpa using h2)
  · rename_i h1
    simp only [List.isEmpty_iff, List.filter_eq_nil_iff] at h1
    push_neg at h1
    obtain ⟨f, hf, hne⟩ := h1
    have hfne : f.2 ≠ [] := by simpa using hne
    have hex : ∃ f ∈ feeds, f.2 ≠ [] := ⟨f, hf, hfne⟩
    split
    · rename_i h2
      simp only [List.isEmpty_iff, List.filter_eq_nil_iff] at h2
      simp only [true_iff]
      refine ⟨hex, ?_⟩
      intro t ht
      have htm : (buildNormRow dist t.1 t.2, confidence_pct t.2.confidence) ∈
          (taggedRows feeds).map (fun t =>
            (buildNormRow dist t.1 t.2, confidence_pct t.2.confidence)) :=
        List.mem_map_of_mem _ ht
      have htm2 : ∃ q ∈ ((taggedRows feeds).map (fun t =>
          (buildNormRow dist t.1 t.2, confidence_pct t.2.confidence))).enum,
          q.2 = (buildNormRow dist t.1 t.2, confidence_pct t.2.confidence) := by
        rw [← List.enum_map_snd ((taggedRows feeds).map (fun t =>
          (buildNormRow dist t.1 t.2, confidence_pct t.2.confidence)))] at htm
        exact List.mem_map.mp htm
      obtain ⟨q, hq, hq2⟩ := htm2
      have h3 := h2 q hq
      have hq3 : q.2.2 = confidence_pct t.2.confidence := by rw [hq2]
      rw [hq3] at h3
      simp only [decide_eq_true_eq] at h3
      exact not_le.mp h3
    · rename_i h2
      simp only [reduceCtorEq, false_iff]
      rintro ⟨-, hall⟩
      simp only [List.isEmpty_iff, List.filter_eq_nil_iff] at h2
      push_neg at h2
      obtain ⟨q, hq, hge⟩ := h2
      have hq2 : q.2 ∈ (taggedRows feeds).map (fun t =>
          (buildNormRow dist t.1 t.2, confidence_pct t.2.confidence)) := by
        have h4 := List.mem_map_of_mem Prod.snd hq
        rwa [List.enum_map_snd] at h4
      obtain ⟨t, ht, htk⟩ := List.mem_map.mp hq2
      have h5 := hall t ht
      have h6 : 40 ≤ q.2.2 := of_decide_eq_true (by simpa using hge)
      rw [← htk] at h6
      exact absurd h6 (not_le.mpr h5)

/-- Branch-level restatement of `confidence_pct`. -/
theorem confidence_pct_eq (c : RawCell) :
    confidence_pct c =
      (match mappingLookup (conf_raw c) with
      | some v => max 0 (min v 100)
      | none =>
        match c.toNumeric? with
        | some q => max 0 (min q 100)
        | none => 0) := by
  unfold confidence_pct
  cases mappingLookup (conf_raw c) <;> cases c.toNumeric? <;> rfl

/-- The risk classifier answers `Low` exactly below 50. -/
theorem classify_risk_eq_low_iff (conf : ℚ) : classify_risk conf = "Low" ↔ conf < 50 := by
  unfold classify_risk
  split_ifs with h1 h2
  · exact iff_of_false (by decide) (not_lt.mpr (by linarith))
  · exact iff_of_false (by decide) (not_lt.mpr (by linarith))
  · exact iff_of_true rfl (not_le.mp h2)

/-- The guarded bbox cosine is always positive: the true cosine branch only
runs for latitudes strictly inside `(-90, 90)` degrees, and the polar guard
substitutes the positive constant. -/
theorem bboxCos_pos (lat : ℝ) : 0 < bboxCos lat := by
  unfold bboxCos
  split_ifs with h
  · have hpi := Real.pi_pos
    have h1 : |radians lat| < Real.pi / 2 := by
      unfold radians
      rw [abs_mul, abs_of_pos (by positivity : (0:ℝ) < Real.pi / 180)]
      calc |lat| * (Real.pi / 180) < 89.9 * (Real.pi / 180) := by
            exact mul_lt_mul_of_pos_right h (by positivity)
        _ < Real.pi / 2 := by nlinarith
    exact Real.cos_pos_of_mem_Ioo ⟨(abs_lt.mp h1).1, (abs_lt.mp h1).2⟩
  · norm_num

set_option maxRecDepth 100000 in
/-- C1: the claim asserts that the final report is sorted by `distance_km`
with a *stable* sort, ties keeping arrival order.  The source sorts with
`DataFrame.sort_values(by='distance_km')`, whose default `kind='quicksort'`
runs numpy's introsort (`aquicksort`); on 17 rows of equal `distance_km`
(all passing the confidence filter) that routine returns the scrambled
argsort below rather than the identity `0,…,16`, so the tied rows are
emitted out of arrival order and the claim fails on the code as written
(the spec records the intended behaviour; `kind='stable'` realizes it). -/
theorem C1_default_quicksort_reorders_equal_keys :
    argsort_quicksort (Array.mkArray 17 (0 : ℚ)) =
      #[0, 14, 13, 12, 11, 10, 9, 15, 8, 6, 5, 4, 3, 2, 1, 7, 16] ∧
    argsort_quicksort (Array.mkArray 17 (0 : ℚ)) ≠ Array.range 17 := by
  constructor
  · decide
  · decide

/-- C2: confidence normalization maps the labels `low`, `nominal`, `high`
(after trimming and lowercasing) to 30, 60, 90; otherwise a numeric parse is
clamped to `[0, 100]`; otherwise the value is 0; and the result is always
defined and inside `[0, 100]`. -/
theorem C2_confidence_normalization (c : RawCell) :
    (conf_raw c = "low" → confidence_pct c = 30) ∧
    (conf_raw c = "nominal" → confidence_pct c = 60) ∧
    (conf_raw c = "high" → confidence_pct c = 90) ∧
    (mappingLookup (conf_raw c) = none → ∀ q : ℚ, c.toNumeric? = some q →
      confidence_pct c = max 0 (min q 100)) ∧
    (mappingLookup (conf_raw c) = none → c.toNumeric? = none → confidence_pct c = 0) ∧
    0 ≤ confidence_pct c ∧ confidence_pct c ≤ 100 := by
  refine ⟨?_, ?_, ?_, ?_, ?_, ?_, ?_⟩
  · intro h
    rw [confidence_pct_eq, h]
    rfl
  · intro h
    rw [confidence_pct_eq, h]
    rfl
  · intro h
    rw [confidence_pct_eq, h]
    rfl
  · intro h q hq
    rw [confidence_pct_eq, h, hq]
  · intro h hq
    rw [confidence_pct_eq, h, hq]
  · rw [confidence_pct_eq]
    cases mappingLookup (conf_raw c) with
    | none =>
      cases c.toNumeric? with
      | none => norm_num
      | some q => exact le_max_left 0 _
    | some v => exact le_max_left 0 _
  · rw [confidence_pct_eq]
    cases mappingLookup (conf_raw c) with
    | none =>
      cases c.toNumeric? with
      | none => norm_num
      | some q => exact max_le (by norm_num) (min_le_right q 100)
    | some v => exact max_le (by norm_num) (min_le_right v 100)

/-- C7: a missing or unparseable `frp` becomes exactly 0 (never missing);
intensity is a pure function of the resulting `frp` with bands
`< 30 → Low`, `[30, 100) → Moderate`, `≥ 100 → High`, so a missing `frp`
classifies as `Low`; and every report row's `intensity` column is that
function of its `frp` column. -/
theorem C7_frp_intensity :
    (∀ c : RawCell, c.toNumeric? = none → frpValue c = 0) ∧
    frpValue .na = 0 ∧
    (∀ (c : RawCell) (q : ℚ), c.toNumeric? = some q → frpValue c = q) ∧
    (∀ f : ℚ, (f < 30 → intensityOfFrp f = "Low") ∧
      (30 ≤ f → f < 100 → intensityOfFrp f = "Moderate") ∧
      (100 ≤ f → intensityOfFrp f = "High")) ∧
    intensityOfFrp (frpValue .na) = "Low" ∧
    (∀ {K : Type} [LinearOrder K] (dist : Option ℚ → Option ℚ → Option K)
      (feeds : List (String × List RawRow)) (frame : List (ℕ × OutRow K)),
      check_fires dist feeds = .report frame →
        ∀ p ∈ frame, p.2.row.intensity = intensityOfFrp p.2.row.frp) := by
  refine ⟨?_, ?_, ?_, ?_, ?_, ?_⟩
  · intro c h
    unfold frpValue
    rw [h]
    rfl
  · rfl
  · intro c q h
    unfold frpValue
    rw [h]
    rfl
  · intro f
    refine ⟨?_, ?_, ?_⟩
    · intro h
      unfold intensityOfFrp
      rw [if_pos h]
    · intro h1 h2
      unfold intensityOfFrp
      rw [if_neg (not_lt.mpr h1), if_pos h2]
    · intro h
      unfold intensityOfFrp
      rw [if_neg (by linarith), if_neg (not_lt.mpr h)]
  · rfl
  · intro K _ dist feeds frame h p hp
    obtain ⟨t, _, _, hrow, _⟩ := report_mem_spec dist feeds frame h hp
    rw [hrow]
    rfl

/-- C8: the bounding box is built from `Δlat = r/111` and
`Δlon = r/(111·cos_lat)` where `cos_lat` is the cosine of the latitude in
radians, replaced by the fixed `0.0001` exactly when `|lat| ≥ 89.9`; and for
any latitude in `[-90, 90]`, any longitude and any positive radius the box is
well-formed: min longitude and latitude strictly below the respective max. -/
theorem C8_generate_bbox (lat lon r : ℝ) (_hlat : |lat| ≤ 90) (hr : 0 < r) :
    generate_bbox lat lon r =
      (lon - r / (111 * bboxCos lat), lat - r / 111,
       lon + r / (111 * bboxCos lat), lat + r / 111) ∧
    (|lat| < 89.9 → bboxCos lat = Real.cos (radians lat)) ∧
    (89.9 ≤ |lat| → bboxCos lat = 0.0001) ∧
    (generate_bbox lat lon r).1 < (generate_bbox lat lon r).2.2.1 ∧
    (generate_bbox lat lon r).2.1 < (generate_bbox lat lon r).2.2.2 := by
  have hd : 0 < r / (111 * bboxCos lat) := div_pos hr (mul_pos (by norm_num) (bboxCos_pos lat))
  have hd2 : 0 < r / 111 := by positivity
  refine ⟨rfl, ?_, ?_, ?_, ?_⟩
  · intro h
    unfold bboxCos
    rw [if_pos h]
  · intro h
    unfold bboxCos
    rw [if_neg (not_lt.mpr h)]
  · show lon - r / (111 * bboxCos lat) < lon + r / (111 * bboxCos lat)
    linarith
  · show lat - r / 111 < lat + r / 111
    linarith

/-- C3: every row of a returned report has numeric confidence at least 40,
every report row originates from a fetched row (columns derived from it, risk
classified from its numeric confidence), and the report never has more rows
than were fetched. -/
theorem C3_filter_invariant {K : Type} [LinearOrder K]
    (dist : Option ℚ → Option ℚ → Option K) (feeds : List (String × List RawRow))
    (frame : List (ℕ × OutRow K)) (h : check_fires dist feeds = .report frame) :
    (∀ p ∈ frame, 40 ≤ confidence_pct p.2.row.confidence) ∧
    (∀ p ∈ frame, ∃ t ∈ taggedRows feeds, p.2.row = buildNormRow dist t.1 t.2 ∧
      p.2.fire_risk = classify_risk (confidence_pct t.2.confidence)) ∧
    frame.length ≤ totalFetched feeds := by
  refine ⟨?_, ?_, ?_⟩
  · intro p hp
    obtain ⟨t, _, hc, hrow, _⟩ := report_mem_spec dist feeds frame h hp
    rw [hrow]
    exact hc
  · intro p hp
    obtain ⟨t, ht, _, hrow, hrisk⟩ := report_mem_spec dist feeds frame h hp
    exact ⟨t, ht, hrow, hrisk⟩
  · exact report_length_le dist feeds frame h

/-- C4: the haversine distance is undefined (NaN) exactly when a coordinate
is missing, and in any returned report, under any distance function with that
missing-coordinate behaviour, a row with a missing latitude or longitude
comes strictly after every row whose distance is defined. -/
theorem C4_missing_coords_sort_last :
    (∀ (lat0 lon0 : ℝ) (lat lon : Option ℝ),
      haversine_np lat0 lon0 lat lon = none ↔ (lat = none ∨ lon = none)) ∧
    (∀ {K : Type} [LinearOrder K] (dist : Option ℚ → Option ℚ → Option K)
      (feeds : List (String × List RawRow)) (frame : List (ℕ × OutRow K)),
      check_fires dist feeds = .report frame →
      (∀ a b, dist a b = none ↔ (a = none ∨ b = none)) →
      ∀ (i j : ℕ) (hi : i < frame.length) (hj : j < frame.length),
        (frame.get ⟨i, hi⟩).2.row.distance_km ≠ none →
        ((frame.get ⟨j, hj⟩).2.row.latitude = none ∨
          (frame.get ⟨j, hj⟩).2.row.longitude = none) →
        i < j) := by
  constructor
  · intro lat0 lon0 lat lon
    cases lat <;> cases lon <;> simp [haversine_np]
  · intro K _ dist feeds frame h hdist i j hi hj hdef hmiss
    have hjmem : (frame.get ⟨j, hj⟩) ∈ frame := List.get_mem _ _ _
    obtain ⟨t, _, _, hrow, _⟩ := report_mem_spec dist feeds frame h hjmem
    have hdk : (frame.get ⟨j, hj⟩).2.row.distance_km =
        dist (frame.get ⟨j, hj⟩).2.row.latitude (frame.get ⟨j, hj⟩).2.row.longitude := by
      rw [hrow]
      rfl
    have hjnone : (frame.get ⟨j, hj⟩).2.row.distance_km = none := by
      rw [hdk]
      exact (hdist _ _).mpr hmiss
    rcases lt_trichotomy i j with hlt | heq | hgt
    · exact hlt
    · subst heq
      exact absurd hjnone hdef
    · exfalso
      have hsort := report_sorted_get dist feeds frame h j i hgt hj hi
      rw [hjnone] at hsort
      cases hd : (frame.get ⟨i, hi⟩).2.row.distance_km with
      | none => exact hdef hd
      | some x =>
        rw [hd] at hsort
        simp [optLe] at hsort

/-- C5: the no-data path is taken exactly when no sensor contributed any row
(before any normalization), the filtered path exactly when rows were fetched
but every one has numeric confidence below 40, and the two outcomes are
distinct values. -/
theorem C5_empty_result_paths {K : Type} [LinearOrder K]
    (dist : Option ℚ → Option ℚ → Option K) (feeds : List (String × List RawRow)) :
    (check_fires dist feeds = .noData ↔ ∀ f ∈ feeds, f.2 = []) ∧
    (check_fires dist feeds = .noReliable ↔
      ((∃ f ∈ feeds, f.2 ≠ []) ∧
        ∀ t ∈ taggedRows feeds, confidence_pct t.2.confidence < 40)) ∧
    CheckResult.noData ≠ (CheckResult.noReliable : CheckResult K) :=
  ⟨check_fires_noData_iff dist feeds, check_fires_noReliable_iff dist feeds, by simp⟩

/-- C6: fire risk is the pure confidence classifier with bands `≥ 70 → High`,
`[50, 70) → Medium`, `< 50 → Low`; every report row's risk is that function
of its numeric confidence, `Low` appears in a report exactly for confidence
in `[40, 50)`, and no tier other than the three exists. -/
theorem C6_risk_tiers {K : Type} [LinearOrder K]
    (dist : Option ℚ → Option ℚ → Option K) (feeds : List (String × List RawRow))
    (frame : List (ℕ × OutRow K)) (h : check_fires dist feeds = .report frame)
    (conf : ℚ) :
    (70 ≤ conf → classify_risk conf = "High") ∧
    (50 ≤ conf → conf < 70 → classify_risk conf = "Medium") ∧
    (conf < 50 → classify_risk conf = "Low") ∧
    (∀ p ∈ frame,
      p.2.fire_risk = classify_risk (confidence_pct p.2.row.confidence) ∧
      (p.2.fire_risk = "Low" ↔ (40 ≤ confidence_pct p.2.row.confidence ∧
        confidence_pct p.2.row.confidence < 50)) ∧
      (p.2.fire_risk = "Low" ∨ p.2.fire_risk = "Medium" ∨ p.2.fire_risk = "High")) := by
  refine ⟨?_, ?_, ?_, ?_⟩
  · intro h70
    unfold classify_risk
    rw [if_pos h70]
  · intro h50 h70
    unfold classify_risk
    rw [if_neg (not_le.mpr h70), if_pos h50]
  · intro h50
    unfold classify_risk
    rw [if_neg (not_le.mpr (lt_of_lt_of_le h50 (by norm_num))), if_neg (not_le.mpr h50)]
  · intro p hp
    obtain ⟨t, _, hc40, hrow, hrisk⟩ := report_mem_spec dist feeds frame h hp
    have hcc : confidence_pct p.2.row.confidence = confidence_pct t.2.confidence := by
      rw [hrow]
      rfl
    refine ⟨by rw [hrisk, hcc], ?_, ?_⟩
    · rw [hrisk, hcc, classify_risk_eq_low_iff]
      constructor
      · intro hlt
        exact ⟨hc40, hlt⟩
      · intro hb
        exact hb.2
    · rw [hrisk]
      unfold classify_risk
      split_ifs <;> simp

/-- Floor division of numerator by denominator computes the floor of a
rational. -/
theorem ratFloor_eq_floor (q : ℚ) : ratFloor q = ⌊q⌋ := by
  unfold ratFloor
  rw [Int.fdiv_eq_ediv _ (Int.ofNat_nonneg q.den), Rat.floor_def]

/-- Any rational in `[39.5, 40)` rounds (half-to-even) to `40`. -/
theorem roundHalfEven_of_mem_band (q : ℚ) (h1 : 39.5 ≤ q) (h2 : q < 40) :
    roundHalfEven q = 40 := by
  have hden : (0:ℚ) < (q.den : ℚ) := by exact_mod_cast q.pos
  have hnum : (79:ℤ) * q.den ≤ 2 * q.num := by
    have h79 : (79:ℚ) / 2 ≤ q := by linarith [h1]
    rw [← Rat.num_div_den q, div_le_div_iff₀ (by norm_num) hden] at h79
    have h79b : (79:ℤ) * q.den ≤ q.num * 2 := by exact_mod_cast h79
    linarith
  have hfloor : ratFloor q = 39 := by
    rw [ratFloor_eq_floor]
    refine Int.floor_eq_iff.mpr ⟨?_, ?_⟩
    · push_cast
      linarith
    · push_cast
      linarith
  unfold roundHalfEven
  rw [hfloor]
  rw [if_neg (by omega)]
  split_ifs with hd2 heven
  · norm_num
  · exact absurd heven (by norm_num)
  · norm_num

/-- C9: the stored `confidence_percent` column is only the rounded display
string while both the filter and risk classification use the unrounded
numeric series; every rational confidence in `[39.5, 40)` displays as
`"40%"`, yet no report row has its numeric confidence in that band. -/
theorem C9_display_only_formatting {K : Type} [LinearOrder K]
    (dist : Option ℚ → Option ℚ → Option K) (feeds : List (String × List RawRow))
    (frame : List (ℕ × OutRow K)) (h : check_fires dist feeds = .report frame)
    (q : ℚ) (h1 : 39.5 ≤ q) (h2 : q < 40) :
    formatPct q = "40%" ∧
    (∀ p ∈ frame,
      p.2.row.confidence_percent = formatPct (confidence_pct p.2.row.confidence) ∧
      p.2.fire_risk = classify_risk (confidence_pct p.2.row.confidence) ∧
      40 ≤ confidence_pct p.2.row.confidence) ∧
    (∀ p ∈ frame, ¬ (39.5 ≤ confidence_pct p.2.row.confidence ∧
      confidence_pct p.2.row.confidence < 40)) := by
  refine ⟨?_, ?_, ?_⟩
  · unfold formatPct
    rw [roundHalfEven_of_mem_band q h1 h2]
    decide
  · intro p hp
    obtain ⟨t, _, hc40, hrow, hrisk⟩ := report_mem_spec dist feeds frame h hp
    have hcc : confidence_pct p.2.row.confidence = confidence_pct t.2.confidence := by
      rw [hrow]
      rfl
    refine ⟨?_, ?_, ?_⟩
    · rw [hrow]
      rfl
    · rw [hrisk, hcc]
    · rw [hcc]
      exact hc40
  · intro p hp
    obtain ⟨t, _, hc40, hrow, _⟩ := report_mem_spec dist feeds frame h hp
    have hcc : confidence_pct p.2.row.confidence = confidence_pct t.2.confidence := by
      rw [hrow]
      rfl
    rintro ⟨-, hlt⟩
    rw [hcc] at hlt
    exact absurd hc40 (not_le.mpr hlt)

/-- C10: the ten-column projection is only for the printed table; the
returned frame keeps the raw feed columns (confidence cell, acquisition time
and date, any extra feed columns) alongside every derived column, and its
row index is reset to `0, …, n-1`. -/
theorem C10_returned_frame_unprojected {K : Type} [LinearOrder K]
    (dist : Option ℚ → Option ℚ → Option K) (feeds : List (String × List RawRow))
    (frame : List (ℕ × OutRow K)) (h : check_fires dist feeds = .report frame) :
    frame.map Prod.fst = List.range frame.length ∧
    printed_table frame = frame.map (fun p => projectRow p.2) ∧
    (∀ p ∈ frame, ∃ t ∈ taggedRows feeds,
      p.2.row.latitude = t.2.latitude ∧ p.2.row.longitude = t.2.longitude ∧
      p.2.row.frp = frpValue t.2.frp ∧ p.2.row.confidence = t.2.confidence ∧
      p.2.row.acq_time = t.2.acq_time ∧ p.2.row.acq_date = t.2.acq_date ∧
      p.2.row.extra = t.2.extra ∧ p.2.row.satellite = t.1 ∧
      p.2.row.confidence_percent = formatPct (confidence_pct t.2.confidence) ∧
      p.2.row.intensity = intensityOfFrp (frpValue t.2.frp) ∧
      p.2.row.distance_km = dist t.2.latitude t.2.longitude ∧
      p.2.row.time = formatTime t.2.acq_time ∧ p.2.row.date = t.2.acq_date ∧
      p.2.fire_risk = classify_risk (confidence_pct t.2.confidence)) := by
  refine ⟨?_, rfl, ?_⟩
  · obtain ⟨sorted, hframe, -, -⟩ := check_fires_report_spec dist feeds frame h
    subst hframe
    rw [List.enum_map_fst, List.enum_length]
  · intro p hp
    obtain ⟨t, ht, -, hrow, hrisk⟩ := report_mem_spec dist feeds frame h hp
    refine ⟨t, ht, ?_⟩
    rw [hrow, hrisk]
    exact ⟨rfl, rfl, rfl, rfl, rfl, rfl, rfl, rfl, rfl, rfl, rfl, rfl, rfl, rfl⟩

/-- The demo distance function has the haversine's missing-coordinate
behaviour. -/
theorem distZero_none_iff : ∀ a b : Option ℚ, distZero a b = none ↔ (a = none ∨ b = none) := by
  intro a b
  cases a <;> cases b <;> simp [distZero]

/-- Witness for C2: the label, clamped-numeric and default branches realized
at concrete cells. -/
theorem C2_witness :
    confidence_pct (.str " High ") = 90 ∧
    confidence_pct (.num 150) = max 0 (min 150 100) ∧
    confidence_pct .na = 0 :=
  ⟨(C2_confidence_normalization (.str " High ")).2.2.1 (by decide),
   (C2_confidence_normalization (.num 150)).2.2.2.1 (by decide) 150 (by decide),
   (C2_confidence_normalization .na).2.2.2.2.1 (by decide) (by decide)⟩

/-- Witness for C3: a concrete two-sensor run returning a report that
satisfies the filter invariant. -/
theorem C3_witness :
    ∃ frame : List (ℕ × OutRow ℚ), check_fires distZero demoFeeds = .report frame ∧
      ((∀ p ∈ frame, 40 ≤ confidence_pct p.2.row.confidence) ∧
       (∀ p ∈ frame, ∃ t ∈ taggedRows demoFeeds, p.2.row = buildNormRow distZero t.1 t.2 ∧
         p.2.fire_risk = classify_risk (confidence_pct t.2.confidence)) ∧
       frame.length ≤ totalFetched demoFeeds) :=
  ⟨_, rfl, C3_filter_invariant distZero demoFeeds _ rfl⟩

/-- Witness for C4: a missing coordinate gives an undefined haversine, and in
a concrete report the missing-coordinate row (index 1) comes after the
defined-distance row (index 0). -/
theorem C4_witness :
    haversine_np 34.05 (-118.25) none (some 2) = none ∧
    (∃ frame : List (ℕ × OutRow ℚ), check_fires distZero demoFeeds = .report frame ∧
      2 ≤ frame.length) ∧
    (0 : ℕ) < 1 :=
  ⟨(C4_missing_coords_sort_last.1 34.05 (-118.25) none (some 2)).mpr (Or.inl rfl),
   ⟨_, rfl, by decide⟩,
   C4_missing_coords_sort_last.2 distZero demoFeeds _ rfl distZero_none_iff 0 1
     (by decide) (by decide) (by decide) (by decide)⟩

/-- Witness for C5: a run with no rows takes the no-data path and a run whose
single row is below the threshold takes the filtered path. -/
theorem C5_witness :
    check_fires distZero [("MODIS_NRT", ([] : List RawRow))] = .noData ∧
    check_fires distZero [("MODIS_NRT", [demoRowLow])] = .noReliable :=
  ⟨(C5_empty_result_paths distZero [("MODIS_NRT", ([] : List RawRow))]).1.mpr (by decide),
   (C5_empty_result_paths distZero [("MODIS_NRT", [demoRowLow])]).2.1.mpr (by decide)⟩

/-- Witness for C6: the High band at confidence 85 and the per-row risk
equation on a concrete report. -/
theorem C6_witness :
    classify_risk 85 = "High" ∧
    (∃ frame : List (ℕ × OutRow ℚ), check_fires distZero demoFeeds = .report frame ∧
      ∀ p ∈ frame, p.2.fire_risk = classify_risk (confidence_pct p.2.row.confidence)) :=
  ⟨(C6_risk_tiers distZero demoFeeds _ rfl 85).1 (by decide),
   ⟨_, rfl, fun p hp => ((C6_risk_tiers distZero demoFeeds _ rfl 85).2.2.2 p hp).1⟩⟩

/-- Witness for C7: unparseable and numeric `frp` cells, the High band at
`frp = 120`, and the per-row intensity equation on a concrete report. -/
theorem C7_witness :
    frpValue (.str "abc") = 0 ∧
    frpValue (.num 120) = 120 ∧
    intensityOfFrp 120 = "High" ∧
    (∃ frame : List (ℕ × OutRow ℚ), check_fires distZero demoFeeds = .report frame ∧
      ∀ p ∈ frame, p.2.row.intensity = intensityOfFrp p.2.row.frp) :=
  ⟨C7_frp_intensity.1 (.str "abc") (by decide),
   C7_frp_intensity.2.2.1 (.num 120) 120 (by decide),
   (C7_frp_intensity.2.2.2.1 120).2.2 (by decide),
   ⟨_, rfl, C7_frp_intensity.2.2.2.2.2 distZero demoFeeds _ rfl⟩⟩

/-- Witness for C8: a well-formed box at the equator with radius 100 km. -/
theorem C8_witness :
    |(0:ℝ)| ≤ 90 ∧ (0:ℝ) < 100 ∧
    (generate_bbox 0 0 100).1 < (generate_bbox 0 0 100).2.2.1 ∧
    (generate_bbox 0 0 100).2.1 < (generate_bbox 0 0 100).2.2.2 :=
  ⟨by norm_num, by norm_num,
   (C8_generate_bbox 0 0 100 (by norm_num) (by norm_num)).2.2.2.1,
   (C8_generate_bbox 0 0 100 (by norm_num) (by norm_num)).2.2.2.2⟩

/-- Witness for C9: the value `79/2 = 39.5` lies in the band, displays as
`"40%"`, and a concrete report contains no confidence in the band. -/
theorem C9_witness :
    (39.5 : ℚ) ≤ mkRat 79 2 ∧ (mkRat 79 2 : ℚ) < 40 ∧
    formatPct (mkRat 79 2) = "40%" ∧
    (∃ frame : List (ℕ × OutRow ℚ), check_fires distZero demoFeeds = .report frame ∧
      ∀ p ∈ frame, ¬ (39.5 ≤ confidence_pct p.2.row.confidence ∧
        confidence_pct p.2.row.confidence < 40)) := by
  have hb1 : (39.5 : ℚ) ≤ mkRat 79 2 := by
    rw [Rat.mkRat_eq_div]
    norm_num
  have hb2 : (mkRat 79 2 : ℚ) < 40 := by
    rw [Rat.mkRat_eq_div]
    norm_num
  exact ⟨hb1, hb2,
    (C9_display_only_formatting distZero demoFeeds _ rfl (mkRat 79 2) hb1 hb2).1,
    ⟨_, rfl, (C9_display_only_formatting distZero demoFeeds _ rfl (mkRat 79 2) hb1 hb2).2.2⟩⟩

/-- Witness for C10: a concrete report with reset index and the printed-table
projection equation. -/
theorem C10_witness :
    ∃ frame : List (ℕ × OutRow ℚ), check_fires distZero demoFeeds = .report frame ∧
      frame.map Prod.fst = List.range frame.length ∧
      printed_table frame = frame.map (fun p => projectRow p.2) :=
  ⟨_, rfl, (C10_returned_frame_unprojected distZero demoFeeds _ rfl).1,
   (C10_returned_frame_unprojected distZero demoFeeds _ rfl).2.1⟩

example : confidence_pct (.str " High ") = 90 := by decide
example : confidence_pct (.str "42") = 42 := by decide
example : confidence_pct .na = 0 := by decide
example : confidence_pct (.num 150) = 100 := by decide
example : confidence_pct (.num (-3)) = 0 := by decide
example : formatPct (mkRat 79 2) = "40%" := by decide
example : formatTime (some 1345) = "13:45" := by decide
example : parseFloat? "1.5e1" = some 15 := by decide
example : argsort_quicksort #[3, 1, 2] = #[1, 2, 0] := by decide
